import Mathlib

/-!
# Verification of the IBM MQ PCF statistics decoder

A shallow embedding of the PCF (Programmable Command Format) message
decoder from `pkg/pcf` (parser): the fixed 36-byte header decoder, the
variable-length parameter-stream decoder, the value-type resolver, and
the aggregate builders (queue / channel / MQI statistics, accounting),
together with theorems about them.

Modelling conventions:
* a byte buffer is a `List Nat`; reads reduce each byte modulo 256, so
  the model agrees with the Go code on all genuine byte buffers;
* Go `int32` values are carried as `Int` (the decoder converts each
  little-endian 32-bit word through two's complement);
* Go `time.Time` instants are abstract `Nat` values; the stdlib
  function `time.Parse` is an uninterpreted parameter `timeParse`
  (format string, input string) and `time.Now()` an explicit `now`
  argument, so every theorem holds for every clock and every behaviour
  of the time library;
* Go strings that originate from message bytes stay `List Nat`; the
  `msgType` argument and the record-kind labels, which never mix with
  message bytes, are Lean `String`s;
* the `map[string]interface{}` of raw parameters, keyed by the strings
  `param_<tag>`, is represented as an insertion-ordered association
  list keyed by the numeric tag (the keying is bijective).
-/

/-- One byte of a message buffer (reduced mod 256 at every read). -/
abbrev Byte := Nat

/-- Little-endian 32-bit read at `off`, as `binary.LittleEndian.Uint32`. -/
def leU32 (data : List Byte) (off : Nat) : Nat :=
  (data.getD off 0) % 256
    + (data.getD (off + 1) 0) % 256 * 256
    + (data.getD (off + 2) 0) % 256 * 65536
    + (data.getD (off + 3) 0) % 256 * 16777216

/-- Reinterpret a 32-bit word as a signed `int32` (two's complement). -/
def toInt32 (n : Nat) : Int :=
  if n < 2147483648 then (n : Int) else (n : Int) - 4294967296

/-- Go slice `data[a:b]` of a byte buffer. -/
def byteSlice (data : List Byte) (a b : Nat) : List Byte :=
  (data.drop a).take (b - a)

/-! PCF parameter-type constants from the source. -/

def MQCFT_INTEGER : Int := 3
def MQCFT_STRING : Int := 4
def MQCFT_BYTE_STRING : Int := 9

/-! Command-code constants from the source. -/

def MQCMD_STATISTICS_MQI : Int := 112
def MQCMD_STATISTICS_Q : Int := 113
def MQCMD_STATISTICS_CHANNEL : Int := 114
def MQCMD_ACCOUNTING_MQI : Int := 138
def MQCMD_ACCOUNTING_Q : Int := 139

/-! Parameter-tag constants from the source. -/

def MQCA_Q_NAME : Int := 2016
def MQCA_Q_MGR_NAME : Int := 2002
def MQCA_CHANNEL_NAME : Int := 3501
def MQCA_CONNECTION_NAME : Int := 3502
def MQCA_APPL_NAME : Int := 2024
def MQIA_CURRENT_Q_DEPTH : Int := 3
def MQIA_OPEN_INPUT_COUNT : Int := 65
def MQIA_OPEN_OUTPUT_COUNT : Int := 66
def MQIA_HIGH_Q_DEPTH : Int := 36
def MQIA_MSG_DEQ_COUNT : Int := 38
def MQIA_MSG_ENQ_COUNT : Int := 37
def MQIACH_MSGS : Int := 1501
def MQIACH_BYTES : Int := 1502
def MQIACH_BATCHES : Int := 1503
def MQIAMO_OPENS : Int := 3
def MQIAMO_CLOSES : Int := 4
def MQIAMO_PUTS : Int := 17
def MQIAMO_GETS : Int := 18
def MQIAMO_COMMITS : Int := 12
def MQIAMO_BACKOUTS : Int := 13
def MQCACF_COMMAND_TIME : Int := 3603

/-- The PCF message header: nine signed 32-bit fields (the Go field
`Type` is rendered `Type_`, `Type` being reserved in Lean). -/
structure PCFHeader where
  Type_ : Int
  StrucLength : Int
  Version : Int
  Command : Int
  MsgSeqNumber : Int
  Control : Int
  CompCode : Int
  Reason : Int
  ParameterCount : Int
deriving DecidableEq, Repr

/-- A decoded parameter value: the `interface{}` held in
`PCFParameter.Value` is one of `int32`, `string`, `[]byte`, or `nil`
(the `nil` case is `Option.none` one level up). -/
inductive PCFValue where
  | int (v : Int)
  | str (s : List Byte)
  | bytes (b : List Byte)
deriving DecidableEq, Repr

/-- One PCF parameter: tag, type, declared length and decoded value. -/
structure PCFParameter where
  Parameter : Int
  Type_ : Int
  Length : Int
  Value : Option PCFValue
deriving DecidableEq, Repr

/-- Source `parseHeader`: reads the nine fields little-endian at offsets
0,4,...,32, failing when fewer than 36 bytes are available. -/
def parseHeader (data : List Byte) : Except String PCFHeader :=
  if data.length < 36 then
    .error "insufficient data for PCF header"
  else
    .ok { Type_ := toInt32 (leU32 data 0)
          StrucLength := toInt32 (leU32 data 4)
          Version := toInt32 (leU32 data 8)
          Command := toInt32 (leU32 data 12)
          MsgSeqNumber := toInt32 (leU32 data 16)
          Control := toInt32 (leU32 data 20)
          CompCode := toInt32 (leU32 data 24)
          Reason := toInt32 (leU32 data 28)
          ParameterCount := toInt32 (leU32 data 32) }

/-- Source `cleanString`: truncate at the first NUL byte; the bytes after it
(and the NUL itself) are dropped, and nothing else is changed — in
particular no whitespace is trimmed. -/
def cleanString : List Byte → List Byte
  | [] => []
  | b :: rest => if b = 0 then [] else b :: cleanString rest

/-- One iteration of the `parseParameters` loop body at cursor
`offset`: `none` when the loop breaks there (header does not fit, bad
declared length, or extent past the end of the buffer), otherwise the
decoded parameter and the new cursor (advanced by the declared length
and realigned to 4 bytes). -/
def paramStep (data : List Byte) (offset : Nat) :
    Option (PCFParameter × Nat) :=
  if offset + 12 > data.length then none
  else
    let tag := toInt32 (leU32 data offset)
    let ty := toInt32 (leU32 data (offset + 4))
    let len := toInt32 (leU32 data (offset + 8))
    if len < 12 ∨ len > 65536 then none
    else if (offset : Int) + len > (data.length : Int) then none
    else
      let L := len.toNat
      let value : Option PCFValue :=
        if ty = MQCFT_INTEGER then
          if 16 ≤ len then
            some (.int (toInt32 (leU32 data (offset + 12))))
          else none
        else if ty = MQCFT_STRING then
          if 12 < len then
            some (.str (cleanString (byteSlice data (offset + 12) (offset + L))))
          else none
        else if ty = MQCFT_BYTE_STRING then
          if 12 < len then
            some (.bytes (byteSlice data (offset + 12) (offset + L)))
          else none
        else none
      let offset2 := offset + L
      let offset3 :=
        if offset2 % 4 ≠ 0 then offset2 + (4 - offset2 % 4) else offset2
      some (⟨tag, ty, len, value⟩, offset3)

/-- The `parseParameters` loop: starting from cursor `offset` with the
parameters decoded so far in `acc`, run `paramStep` until the cursor
reaches the end of the buffer or a step breaks. -/
def parseParamsAux (data : List Byte) (offset : Nat)
    (acc : List PCFParameter) : List PCFParameter :=
  if h : offset < data.length then
    match hs : paramStep data offset with
    | none => acc
    | some (param, next) => parseParamsAux data next (acc ++ [param])
  else acc
termination_by data.length - offset
decreasing_by
  have hlt : offset < next := by
    unfold paramStep at hs
    split at hs
    · exact absurd hs (by simp)
    · dsimp only at hs
      split at hs
      · exact absurd hs (by simp)
      · split at hs
        · exact absurd hs (by simp)
        · simp only [Option.some.injEq, Prod.mk.injEq] at hs
          rename_i hbad _
          push_neg at hbad
          obtain ⟨hlo, _⟩ := hbad
          have h12 : 12 ≤ (toInt32 (leU32 data (offset + 8))).toNat := by
            omega
          rcases hs with ⟨_, hnext⟩
          split at hnext <;> omega
  omega

/-- Source `parseParameters`: the declared `count` is received but never
consulted; the byte stream's own boundaries drive the loop, and the
error result is always `nil` in the source. -/
def parseParameters (data : List Byte) (count : Int) :
    Except String (List PCFParameter) :=
  .ok (parseParamsAux data 0 [])

/-- Queue statistics; `HasReaders`/`HasWriters` are derived while
scanning the open-input / open-output count parameters. -/
structure QueueStatistics where
  QueueName : List Byte
  CurrentDepth : Int
  HighDepth : Int
  InputCount : Int
  OutputCount : Int
  EnqueueCount : Int
  DequeueCount : Int
  HasReaders : Bool
  HasWriters : Bool
deriving DecidableEq, Repr

/-- Channel statistics (the byte counter is widened to `int64`). -/
structure ChannelStatistics where
  ChannelName : List Byte
  ConnectionName : List Byte
  Messages : Int
  Bytes : Int
  Batches : Int
deriving DecidableEq, Repr

/-- MQI statistics: application name plus six operation counters. -/
structure MQIStatistics where
  ApplicationName : List Byte
  Opens : Int
  Closes : Int
  Puts : Int
  Gets : Int
  Commits : Int
  Backouts : Int
deriving DecidableEq, Repr

/-- Connection information extracted from accounting parameters; the
two times keep their zero values (the source never assigns them). -/
structure ConnectionInfo where
  ChannelName : List Byte
  ConnectionName : List Byte
  ApplicationName : List Byte
  ConnectTime : Nat
  DisconnectTime : Nat
deriving DecidableEq, Repr

/-- Operation counters extracted from accounting parameters. -/
structure OperationCounts where
  Gets : Int
  Puts : Int
  Browses : Int
  Opens : Int
  Closes : Int
  Commits : Int
  Backouts : Int
deriving DecidableEq, Repr

/-- Top-level statistics record. -/
structure StatisticsData where
  Type_ : String
  QueueManager : List Byte
  Timestamp : Nat
  Parameters : List (Int × Option PCFValue)
  QueueStats : Option QueueStatistics
  ChannelStats : Option ChannelStatistics
  MQIStats : Option MQIStatistics
deriving DecidableEq, Repr

/-- Top-level accounting record. -/
structure AccountingData where
  Type_ : String
  QueueManager : List Byte
  Timestamp : Nat
  Parameters : List (Int × Option PCFValue)
  ConnectionInfo : Option ConnectionInfo
  Operations : Option OperationCounts
deriving DecidableEq, Repr

/-- Insert a key into the raw-parameter map, overwriting the existing
binding when the key is present (Go map assignment). -/
def mapInsert (m : List (Int × Option PCFValue)) (k : Int)
    (v : Option PCFValue) : List (Int × Option PCFValue) :=
  match m with
  | [] => [(k, v)]
  | (k₁, v₁) :: rest =>
      if k₁ = k then (k, v) :: rest else (k₁, v₁) :: mapInsert rest k v

/-- Source `convertParameters`: build the raw map `param_<tag> ↦ value`. -/
def convertParameters (parameters : List PCFParameter) :
    List (Int × Option PCFValue) :=
  parameters.foldl (fun m p => mapInsert m p.Parameter p.Value) []

/-- The shape of Go's `time.Parse`: a layout string and an input
string give an instant or an error. The decoder's theorems hold for
every interpretation of this function. -/
abbrev TimeParse := List Byte → List Byte → Except Unit Nat

/-- ASCII bytes of a Lean string literal (for the layout strings). -/
def asciiBytes (s : String) : List Byte := s.data.map Char.toNat

/-- The ordered list of accepted timestamp layouts from the source. -/
def mqTimeFormats : List (List Byte) :=
  [ asciiBytes "2006-01-02 15:04:05.000"
  , asciiBytes "2006-01-02 15:04:05"
  , asciiBytes "20060102150405"
  , asciiBytes "2006-01-02T15:04:05Z"
  , asciiBytes "2006-01-02T15:04:05.000Z" ]

/-- Try layouts in order; the first success wins. -/
def tryFormats (timeParse : TimeParse) (timestamp : List Byte) :
    List (List Byte) → Except Unit Nat
  | [] => .error ()
  | f :: rest =>
      match timeParse f timestamp with
      | .ok t => .ok t
      | .error _ => tryFormats timeParse timestamp rest

/-- Source `parseMQTimestamp`: fold the accepted layouts over `time.Parse`. -/
def parseMQTimestamp (timeParse : TimeParse) (timestamp : List Byte) :
    Except Unit Nat :=
  tryFormats timeParse timestamp mqTimeFormats

/-- One step of the `parseQueueStats` scan: dispatch on the dynamic
type of the value and then on the tag, exactly as the Go type switch
does. -/
def applyQueueParam (stats : QueueStatistics) (param : PCFParameter) :
    QueueStatistics :=
  match param.Value with
  | some (.int val) =>
      if param.Parameter = MQIA_CURRENT_Q_DEPTH then
        { stats with CurrentDepth := val }
      else if param.Parameter = MQIA_HIGH_Q_DEPTH then
        { stats with HighDepth := val }
      else if param.Parameter = MQIA_OPEN_INPUT_COUNT then
        { stats with InputCount := val, HasReaders := decide (val > 0) }
      else if param.Parameter = MQIA_OPEN_OUTPUT_COUNT then
        { stats with OutputCount := val, HasWriters := decide (val > 0) }
      else if param.Parameter = MQIA_MSG_ENQ_COUNT then
        { stats with EnqueueCount := val }
      else if param.Parameter = MQIA_MSG_DEQ_COUNT then
        { stats with DequeueCount := val }
      else stats
  | some (.str s) =>
      if param.Parameter = MQCA_Q_NAME then
        { stats with QueueName := s }
      else stats
  | _ => stats

/-- Source `parseQueueStats`: linear scan over the parameter sequence. -/
def parseQueueStats (parameters : List PCFParameter) : QueueStatistics :=
  parameters.foldl applyQueueParam
    { QueueName := [], CurrentDepth := 0, HighDepth := 0, InputCount := 0
      OutputCount := 0, EnqueueCount := 0, DequeueCount := 0
      HasReaders := false, HasWriters := false }

/-- Source `parseChannelStats`: linear scan over the parameter sequence. -/
def parseChannelStats (parameters : List PCFParameter) :
    ChannelStatistics :=
  parameters.foldl
    (fun stats param =>
      match param.Value with
      | some (.int val) =>
          if param.Parameter = MQIACH_MSGS then
            { stats with Messages := val }
          else if param.Parameter = MQIACH_BYTES then
            { stats with Bytes := val }
          else if param.Parameter = MQIACH_BATCHES then
            { stats with Batches := val }
          else stats
      | some (.str s) =>
          if param.Parameter = MQCA_CHANNEL_NAME then
            { stats with ChannelName := s }
          else if param.Parameter = MQCA_CONNECTION_NAME then
            { stats with ConnectionName := s }
          else stats
      | _ => stats)
    { ChannelName := [], ConnectionName := [], Messages := 0, Bytes := 0
      Batches := 0 }

/-- Source `parseMQIStats`: linear scan over the parameter sequence. -/
def parseMQIStats (parameters : List PCFParameter) : MQIStatistics :=
  parameters.foldl
    (fun stats param =>
      match param.Value with
      | some (.int val) =>
          if param.Parameter = MQIAMO_OPENS then { stats with Opens := val }
          else if param.Parameter = MQIAMO_CLOSES then
            { stats with Closes := val }
          else if param.Parameter = MQIAMO_PUTS then
            { stats with Puts := val }
          else if param.Parameter = MQIAMO_GETS then
            { stats with Gets := val }
          else if param.Parameter = MQIAMO_COMMITS then
            { stats with Commits := val }
          else if param.Parameter = MQIAMO_BACKOUTS then
            { stats with Backouts := val }
          else stats
      | some (.str s) =>
          if param.Parameter = MQCA_APPL_NAME then
            { stats with ApplicationName := s }
          else stats
      | _ => stats)
    { ApplicationName := [], Opens := 0, Closes := 0, Puts := 0, Gets := 0
      Commits := 0, Backouts := 0 }

/-- Source `parseConnectionInfo`: linear scan over the parameter sequence. -/
def parseConnectionInfo (parameters : List PCFParameter) :
    ConnectionInfo :=
  parameters.foldl
    (fun info param =>
      match param.Value with
      | some (.str s) =>
          if param.Parameter = MQCA_CHANNEL_NAME then
            { info with ChannelName := s }
          else if param.Parameter = MQCA_CONNECTION_NAME then
            { info with ConnectionName := s }
          else if param.Parameter = MQCA_APPL_NAME then
            { info with ApplicationName := s }
          else info
      | _ => info)
    { ChannelName := [], ConnectionName := [], ApplicationName := []
      ConnectTime := 0, DisconnectTime := 0 }

/-- Source `parseOperationCounts`: linear scan over the parameter sequence. -/
def parseOperationCounts (parameters : List PCFParameter) :
    OperationCounts :=
  parameters.foldl
    (fun ops param =>
      match param.Value with
      | some (.int val) =>
          if param.Parameter = MQIAMO_GETS then { ops with Gets := val }
          else if param.Parameter = MQIAMO_PUTS then { ops with Puts := val }
          else if param.Parameter = MQIAMO_OPENS then
            { ops with Opens := val }
          else if param.Parameter = MQIAMO_CLOSES then
            { ops with Closes := val }
          else if param.Parameter = MQIAMO_COMMITS then
            { ops with Commits := val }
          else if param.Parameter = MQIAMO_BACKOUTS then
            { ops with Backouts := val }
          else ops
      | _ => ops)
    { Gets := 0, Puts := 0, Browses := 0, Opens := 0, Closes := 0
      Commits := 0, Backouts := 0 }

/-- The common-field scan shared by `parseStatistics` and
`parseAccounting`: queue-manager name and command-time override. -/
def scanCommon (timeParse : TimeParse) (parameters : List PCFParameter)
    (qmgr : List Byte) (ts : Nat) : List Byte × Nat :=
  parameters.foldl
    (fun (st : List Byte × Nat) param =>
      if param.Parameter = MQCA_Q_MGR_NAME then
        match param.Value with
        | some (.str s) => (s, st.2)
        | _ => st
      else if param.Parameter = MQCACF_COMMAND_TIME then
        match param.Value with
        | some (.str s) =>
            match parseMQTimestamp timeParse s with
            | .ok t => (st.1, t)
            | .error _ => st
        | _ => st
      else st)
    (qmgr, ts)

/-- Source `parseStatistics`: raw map, common fields, then the sub-record
selected by the command code. -/
def parseStatistics (timeParse : TimeParse) (now : Nat)
    (header : PCFHeader) (parameters : List PCFParameter) :
    StatisticsData :=
  let common := scanCommon timeParse parameters [] now
  let stats : StatisticsData :=
    { Type_ := "statistics", QueueManager := common.1
      Timestamp := common.2, Parameters := convertParameters parameters
      QueueStats := none, ChannelStats := none, MQIStats := none }
  if header.Command = MQCMD_STATISTICS_Q then
    { stats with QueueStats := some (parseQueueStats parameters) }
  else if header.Command = MQCMD_STATISTICS_CHANNEL then
    { stats with ChannelStats := some (parseChannelStats parameters) }
  else if header.Command = MQCMD_STATISTICS_MQI then
    { stats with MQIStats := some (parseMQIStats parameters) }
  else stats

/-- Source `parseAccounting`: raw map, common fields, connection info and
operation counts. -/
def parseAccounting (timeParse : TimeParse) (now : Nat)
    (header : PCFHeader) (parameters : List PCFParameter) :
    AccountingData :=
  let common := scanCommon timeParse parameters [] now
  { Type_ := "accounting", QueueManager := common.1
    Timestamp := common.2, Parameters := convertParameters parameters
    ConnectionInfo := some (parseConnectionInfo parameters)
    Operations := some (parseOperationCounts parameters) }

/-- The `interface{}` result of `ParseMessage`: a statistics or an
accounting record. -/
inductive ParsedData where
  | stats (d : StatisticsData)
  | acct (d : AccountingData)
deriving DecidableEq, Repr

/-- Source `ParseMessage`: reject buffers under 36 bytes, decode the header
and the parameter stream, then dispatch on the command code; unknown
commands fall back to a generic record labelled with `msgType`. -/
def ParseMessage (timeParse : TimeParse) (now : Nat) (data : List Byte)
    (msgType : String) : Except String ParsedData :=
  if data.length < 36 then
    .error "message too short to be a valid PCF message"
  else
    match parseHeader data with
    | .error e => .error ("failed to parse PCF header: " ++ e)
    | .ok header =>
      match parseParameters (data.drop 36) header.ParameterCount with
      | .error e => .error ("failed to parse PCF parameters: " ++ e)
      | .ok parameters =>
        if header.Command = MQCMD_STATISTICS_Q ∨
            header.Command = MQCMD_STATISTICS_CHANNEL ∨
            header.Command = MQCMD_STATISTICS_MQI then
          .ok (.stats (parseStatistics timeParse now header parameters))
        else if header.Command = MQCMD_ACCOUNTING_Q ∨
            header.Command = MQCMD_ACCOUNTING_MQI then
          .ok (.acct (parseAccounting timeParse now header parameters))
        else
          .ok (.stats
            { Type_ := msgType, QueueManager := [], Timestamp := now
              Parameters := convertParameters parameters
              QueueStats := none, ChannelStats := none, MQIStats := none })

/-- The least multiple of 4 that is at least `n` (the distance the
cursor travels per parameter, in the claims about alignment). -/
def roundUp4 (n : Nat) : Nat := if n % 4 = 0 then n else n + (4 - n % 4)

/-- The four little-endian bytes of a 32-bit word. -/
def encodeUInt32LE (n : Nat) : List Byte :=
  [n % 256, n / 256 % 256, n / 65536 % 256, n / 16777216 % 256]

/-- Encode a signed 32-bit value as its two's-complement LE word. -/
def encodeInt32LE (x : Int) : List Byte :=
  encodeUInt32LE (x % 4294967296).toNat

/-- Concatenate the encodings of a list of 32-bit values. -/
def encodeInts : List Int → List Byte
  | [] => []
  | x :: xs => encodeInt32LE x ++ encodeInts xs

/-- Encode a header as nine 4-byte LE words at offsets 0,4,...,32. -/
def encodeHeader (h : PCFHeader) : List Byte :=
  encodeInts [h.Type_, h.StrucLength, h.Version, h.Command,
              h.MsgSeqNumber, h.Control, h.CompCode, h.Reason,
              h.ParameterCount]

/-- The value range of a signed 32-bit integer. -/
def int32Range (x : Int) : Prop := -2147483648 ≤ x ∧ x < 2147483648

/-! ## Queue-statistics classifier invariant -/

/-- The reader/writer flags stay consistent with the counts across one
scan step: `HasReaders` tracks `InputCount > 0` and `HasWriters`
tracks `OutputCount > 0`, because the only assignments to a flag and
to its count happen together. -/
theorem applyQueueParam_inv (s : QueueStatistics) (p : PCFParameter)
    (hr : s.HasReaders = decide (s.InputCount > 0))
    (hw : s.HasWriters = decide (s.OutputCount > 0)) :
    (applyQueueParam s p).HasReaders
        = decide ((applyQueueParam s p).InputCount > 0) ∧
    (applyQueueParam s p).HasWriters
        = decide ((applyQueueParam s p).OutputCount > 0) := by
  unfold applyQueueParam
  rcases hv : p.Value with _ | v
  · exact ⟨hr, hw⟩
  · rcases v with v | s₁ | b
    · split_ifs <;> simp_all
    · split_ifs <;> simp_all
    · exact ⟨hr, hw⟩

/-- The flag/count consistency is preserved by the whole scan. -/
theorem foldl_applyQueueParam_inv (ps : List PCFParameter) :
    ∀ s : QueueStatistics,
      s.HasReaders = decide (s.InputCount > 0) →
      s.HasWriters = decide (s.OutputCount > 0) →
      (ps.foldl applyQueueParam s).HasReaders
          = decide ((ps.foldl applyQueueParam s).InputCount > 0) ∧
      (ps.foldl applyQueueParam s).HasWriters
          = decide ((ps.foldl applyQueueParam s).OutputCount > 0) := by
  induction ps with
  | nil => exact fun s hr hw => ⟨hr, hw⟩
  | cons p ps ih =>
      intro s hr hw
      have h := applyQueueParam_inv s p hr hw
      exact ih (applyQueueParam s p) h.1 h.2

/-- C1: for every parameter list, the QueueStatistics built by
`parseQueueStats` satisfies `HasReaders = (InputCount > 0)` and
`HasWriters = (OutputCount > 0)`, where the counts hold the last
decoded integer values of the open-input/open-output tags; in
particular both flags are false when both counts are 0. -/
theorem parseQueueStats_reader_writer_flags (ps : List PCFParameter) :
    (parseQueueStats ps).HasReaders
        = decide ((parseQueueStats ps).InputCount > 0) ∧
    (parseQueueStats ps).HasWriters
        = decide ((parseQueueStats ps).OutputCount > 0) := by
  unfold parseQueueStats
  exact foldl_applyQueueParam_inv ps _ (by decide) (by decide)

/-! ## The parameter decoder ignores the declared count -/

/-- C8: the result of `parseParameters` does not depend on the
declared parameter count: the decoder trusts only the byte stream's
actual boundaries. -/
theorem parseParameters_count_irrelevant (data : List Byte)
    (c₁ c₂ : Int) : parseParameters data c₁ = parseParameters data c₂ :=
  rfl

/-! ## The parameter decoder never fails -/

/-- C10: `parseParameters` always returns a `nil` error, so the branch
of `ParseMessage` that wraps a `parseParameters` failure is
unreachable: the only error `ParseMessage` can produce is the
short-buffer one. -/
theorem parseParameters_never_errors :
    (∀ (data : List Byte) (count : Int),
      ∃ ps, parseParameters data count = Except.ok ps) ∧
    (∀ (timeParse : TimeParse) (now : Nat) (data : List Byte)
        (msgType : String) (e : String),
      ParseMessage timeParse now data msgType = Except.error e →
      data.length < 36) := by
  refine ⟨fun data count => ⟨_, rfl⟩, ?_⟩
  intro timeParse now data msgType e h
  unfold ParseMessage at h
  split at h
  · assumption
  · rename_i hlen
    rw [parseHeader] at h
    rw [if_neg hlen] at h
    simp only [parseParameters] at h
    split_ifs at h

/-- Witness for the hypothesis-bearing part of the previous theorem:
the empty buffer is rejected as shorter than 36 bytes. -/
theorem parseParameters_never_errors_witness : ([] : List Byte).length < 36 :=
  parseParameters_never_errors.2 (fun _ _ => .error ()) 0 [] "statistics"
    "message too short to be a valid PCF message" (by simp [ParseMessage])

/-! ## ParseMessage errors exactly on short buffers -/

/-- C2: `ParseMessage` returns an error if and only if the buffer is
shorter than 36 bytes; on any buffer of at least 36 bytes it returns a
record and no error, whatever the command code or the parameter
bytes. -/
theorem ParseMessage_error_iff_short (timeParse : TimeParse) (now : Nat)
    (data : List Byte) (msgType : String) :
    ((∃ e, ParseMessage timeParse now data msgType = Except.error e) ↔
      data.length < 36) ∧
    (36 ≤ data.length →
      ∃ r, ParseMessage timeParse now data msgType = Except.ok r) := by
  have hok : 36 ≤ data.length →
      ∃ r, ParseMessage timeParse now data msgType = Except.ok r := by
    intro hlen
    unfold ParseMessage
    rw [if_neg (by omega)]
    rw [parseHeader, if_neg (by omega)]
    simp only [parseParameters]
    split_ifs <;> exact ⟨_, rfl⟩
  refine ⟨⟨?_, ?_⟩, hok⟩
  · rintro ⟨e, he⟩
    by_contra hge
    obtain ⟨r, hr⟩ := hok (by omega)
    rw [hr] at he
    exact absurd he (by simp)
  · intro hlt
    exact ⟨_, by unfold ParseMessage; rw [if_pos hlt]⟩

/-! ## NUL truncation of text parameters -/

/-- C5: a text payload without a NUL byte is decoded unchanged (spaces
included, since no trimming happens); a payload with a NUL is
truncated exactly at the first NUL; and the value stored for each
MQCFT_STRING parameter is the NUL-truncated payload. -/
theorem cleanString_nul_truncation :
    (∀ s : List Byte, (0 : Nat) ∉ s → cleanString s = s) ∧
    (∀ pre post : List Byte, (0 : Nat) ∉ pre →
      cleanString (pre ++ 0 :: post) = pre) ∧
    (∀ (data : List Byte) (offset : Nat) (p : PCFParameter) (next : Nat),
      paramStep data offset = some (p, next) → p.Type_ = MQCFT_STRING →
      12 < p.Length →
      p.Value = some (PCFValue.str (cleanString
        (byteSlice data (offset + 12) (offset + p.Length.toNat))))) := by
  refine ⟨?_, ?_, ?_⟩
  · intro s hs
    induction s with
    | nil => rfl
    | cons b rest ih =>
        simp only [List.mem_cons, not_or] at hs
        unfold cleanString
        rw [if_neg (fun hb => hs.1 hb.symm), ih hs.2]
  · intro pre post hpre
    induction pre with
    | nil => simp [cleanString]
    | cons b rest ih =>
        simp only [List.mem_cons, not_or] at hpre
        simp only [List.cons_append]
        unfold cleanString
        rw [if_neg (fun hb => hpre.1 hb.symm), ih hpre.2]
  · intro data offset p next hstep hty hlen
    unfold paramStep at hstep
    split at hstep
    · exact absurd hstep (by simp)
    · dsimp only at hstep
      split at hstep
      · exact absurd hstep (by simp)
      · split at hstep
        · exact absurd hstep (by simp)
        · simp only [Option.some.injEq, Prod.mk.injEq] at hstep
          obtain ⟨hp, -⟩ := hstep
          subst hp
          dsimp only at hty hlen ⊢
          simp [hty, hlen, MQCFT_INTEGER, MQCFT_STRING, MQCFT_BYTE_STRING]

/-- Witness for the NUL-truncation theorem at concrete inputs: text
with spaces survives, a NUL truncates, and a concrete string
parameter's decoded value is its truncated payload. -/
theorem cleanString_nul_truncation_witness :
    cleanString [32, 65, 32] = [32, 65, 32] ∧
    cleanString [32, 65, 0, 66] = [32, 65] ∧
    (⟨1, 4, 16, some (.str [65])⟩ : PCFParameter).Value
      = some (PCFValue.str (cleanString (byteSlice
          [1, 0, 0, 0, 4, 0, 0, 0, 16, 0, 0, 0, 65, 0, 66, 32] 12 16))) :=
  ⟨cleanString_nul_truncation.1 [32, 65, 32] (by decide),
   cleanString_nul_truncation.2.1 [32, 65] [66] (by decide),
   cleanString_nul_truncation.2.2
     [1, 0, 0, 0, 4, 0, 0, 0, 16, 0, 0, 0, 65, 0, 66, 32] 0
     ⟨1, 4, 16, some (.str [65])⟩ 16 (by decide) (by decide) (by decide)⟩

/-! ## Soft truncation on invalid declared lengths -/

/-- C3: when the parameter at the cursor declares a length below 12 or
above 65536, or one that would read past the end of the buffer, the
loop stops there and returns exactly the parameters decoded before it
(no error is possible: `parseParameters` always returns `ok`). -/
theorem parseParamsAux_soft_truncation (data : List Byte) (offset : Nat)
    (acc : List PCFParameter)
    (hfit : offset + 12 ≤ data.length)
    (hbad : toInt32 (leU32 data (offset + 8)) < 12 ∨
            65536 < toInt32 (leU32 data (offset + 8)) ∨
            (data.length : Int) <
              (offset : Int) + toInt32 (leU32 data (offset + 8))) :
    parseParamsAux data offset acc = acc := by
  have hstep : paramStep data offset = none := by
    unfold paramStep
    rw [if_neg (by omega)]
    dsimp only
    rcases hbad with h | h | h
    · rw [if_pos (Or.inl h)]
    · rw [if_pos (Or.inr h)]
    · by_cases hb : toInt32 (leU32 data (offset + 8)) < 12 ∨
          toInt32 (leU32 data (offset + 8)) > 65536
      · rw [if_pos hb]
      · rw [if_neg hb, if_pos (by omega)]
  unfold parseParamsAux
  rw [dif_pos (by omega : offset < data.length)]
  split
  · rfl
  · rename_i p next hsome
    rw [hstep] at hsome
    exact absurd hsome (by simp)

/-- Witness: a parameter declaring length 4 stops the scan, keeping
the previously decoded parameter. -/
theorem parseParamsAux_soft_truncation_witness :
    parseParamsAux [1, 0, 0, 0, 3, 0, 0, 0, 4, 0, 0, 0] 0
      [⟨9, 9, 9, none⟩] = [⟨9, 9, 9, none⟩] :=
  parseParamsAux_soft_truncation _ 0 _ (by decide)
    (Or.inl (by decide))

/-! ## Cursor advancement and alignment -/

/-- C4: when the parameter at a 4-aligned cursor is decoded, the
cursor advances by exactly the declared length rounded up to the next
multiple of 4; the next cursor is again 4-aligned, and it lies at or
beyond the end of the current parameter's byte extent, so consecutive
decoded parameters never overlap. -/
theorem paramStep_cursor_advance (data : List Byte) (offset : Nat)
    (p : PCFParameter) (next : Nat)
    (hstep : paramStep data offset = some (p, next))
    (halign : offset % 4 = 0) :
    next = offset + roundUp4 p.Length.toNat ∧ next % 4 = 0 ∧
    offset + p.Length.toNat ≤ next := by
  unfold paramStep at hstep
  split at hstep
  · exact absurd hstep (by simp)
  · dsimp only at hstep
    split at hstep
    · exact absurd hstep (by simp)
    · split at hstep
      · exact absurd hstep (by simp)
      · simp only [Option.some.injEq, Prod.mk.injEq] at hstep
        obtain ⟨hp, hnext⟩ := hstep
        subst hp
        dsimp only
        unfold roundUp4
        split at hnext <;> split <;> omega

/-- Witness: a declared length of 13 at cursor 0 moves the cursor to
16, the next multiple of 4. -/
theorem paramStep_cursor_advance_witness :
    (16 : Nat) = 0 + roundUp4 (⟨1, 4, 13, some (.str [65])⟩ :
        PCFParameter).Length.toNat ∧
    (16 : Nat) % 4 = 0 ∧
    0 + (⟨1, 4, 13, some (.str [65])⟩ : PCFParameter).Length.toNat ≤ 16 :=
  paramStep_cursor_advance
    [1, 0, 0, 0, 4, 0, 0, 0, 13, 0, 0, 0, 65] 0
    ⟨1, 4, 13, some (.str [65])⟩ 16 (by decide) (by decide)

/-- One successful step unfolds one iteration of the loop: the decoded
parameter is appended to the accumulator and the scan resumes at the
advanced cursor. -/
theorem parseParamsAux_step {data : List Byte} {offset : Nat}
    {p : PCFParameter} {next : Nat}
    (h : paramStep data offset = some (p, next))
    (hlt : offset < data.length) (acc : List PCFParameter) :
    parseParamsAux data offset acc
      = parseParamsAux data next (acc ++ [p]) := by
  conv_lhs => rw [parseParamsAux]
  rw [dif_pos hlt]
  split
  · rename_i hnone
    rw [h] at hnone
    exact absurd hnone (by simp)
  · rename_i p' next' hsome
    rw [h] at hsome
    simp only [Option.some.injEq, Prod.mk.injEq] at hsome
    rw [hsome.1, hsome.2]

/-! ## Unrecognized type tags keep the parameter, with no value -/

/-- C9: a parameter whose type tag is none of integer, string or
byte-string, but whose declared length is valid and fits the buffer,
is still decoded — it is appended to the ordered result with an
absent (`none`) value, and the scan continues past it; no error is
raised. -/
theorem paramStep_unknown_type (data : List Byte) (offset : Nat)
    (acc : List PCFParameter)
    (hfit : offset + 12 ≤ data.length)
    (ht3 : toInt32 (leU32 data (offset + 4)) ≠ MQCFT_INTEGER)
    (ht4 : toInt32 (leU32 data (offset + 4)) ≠ MQCFT_STRING)
    (ht9 : toInt32 (leU32 data (offset + 4)) ≠ MQCFT_BYTE_STRING)
    (hlo : 12 ≤ toInt32 (leU32 data (offset + 8)))
    (hhi : toInt32 (leU32 data (offset + 8)) ≤ 65536)
    (hext : (offset : Int) + toInt32 (leU32 data (offset + 8))
              ≤ (data.length : Int)) :
    ∃ next, paramStep data offset = some
        (⟨toInt32 (leU32 data offset), toInt32 (leU32 data (offset + 4)),
          toInt32 (leU32 data (offset + 8)), none⟩, next) ∧
      parseParamsAux data offset acc
        = parseParamsAux data next
            (acc ++ [⟨toInt32 (leU32 data offset),
                      toInt32 (leU32 data (offset + 4)),
                      toInt32 (leU32 data (offset + 8)), none⟩]) := by
  have hstep : ∃ next, paramStep data offset = some
      (⟨toInt32 (leU32 data offset), toInt32 (leU32 data (offset + 4)),
        toInt32 (leU32 data (offset + 8)), none⟩, next) := by
    unfold paramStep
    rw [if_neg (by omega)]
    dsimp only
    rw [if_neg (by push_neg; exact ⟨hlo, hhi⟩), if_neg (not_lt.mpr hext),
      if_neg ht3, if_neg ht4, if_neg ht9]
    exact ⟨_, rfl⟩
  obtain ⟨next, hstep⟩ := hstep
  exact ⟨next, hstep, parseParamsAux_step hstep (by omega) acc⟩

/-- Witness: a 12-byte parameter of type 5 (integer list) is kept with
an absent value. -/
theorem paramStep_unknown_type_witness :
    ∃ next, paramStep [1, 0, 0, 0, 5, 0, 0, 0, 12, 0, 0, 0] 0 = some
        (⟨toInt32 (leU32 [1, 0, 0, 0, 5, 0, 0, 0, 12, 0, 0, 0] 0),
          toInt32 (leU32 [1, 0, 0, 0, 5, 0, 0, 0, 12, 0, 0, 0] 4),
          toInt32 (leU32 [1, 0, 0, 0, 5, 0, 0, 0, 12, 0, 0, 0] 8),
          none⟩, next) ∧
      parseParamsAux [1, 0, 0, 0, 5, 0, 0, 0, 12, 0, 0, 0] 0 []
        = parseParamsAux [1, 0, 0, 0, 5, 0, 0, 0, 12, 0, 0, 0] next
            ([] ++ [⟨toInt32 (leU32 [1, 0, 0, 0, 5, 0, 0, 0, 12, 0, 0, 0] 0),
                     toInt32 (leU32 [1, 0, 0, 0, 5, 0, 0, 0, 12, 0, 0, 0] 4),
                     toInt32 (leU32 [1, 0, 0, 0, 5, 0, 0, 0, 12, 0, 0, 0] 8),
                     none⟩]) :=
  paramStep_unknown_type [1, 0, 0, 0, 5, 0, 0, 0, 12, 0, 0, 0] 0 []
    (by decide) (by decide) (by decide) (by decide) (by decide)
    (by decide) (by decide)

/-! ## Header round-trip -/

/-- Reading four bytes past a 4-byte prefix skips the prefix. -/
theorem leU32_append4 (a b c d : Byte) (rest : List Byte) (k : Nat) :
    leU32 (a :: b :: c :: d :: rest) (k + 4) = leU32 rest k := rfl

/-- Reading at offset 0 combines the first four bytes. -/
theorem leU32_cons4 (a b c d : Byte) (rest : List Byte) :
    leU32 (a :: b :: c :: d :: rest) 0
      = a % 256 + b % 256 * 256 + c % 256 * 65536
          + d % 256 * 16777216 := rfl

/-- Decoding an encoded word at offset 0 recovers it modulo 2^32. -/
theorem leU32_encodeInt32LE (x : Int) (rest : List Byte) :
    leU32 (encodeInt32LE x ++ rest) 0 = (x % 4294967296).toNat := by
  have h1 : x % 4294967296 < 4294967296 :=
    Int.emod_lt_of_pos x (by norm_num)
  have h0 : 0 ≤ x % 4294967296 := Int.emod_nonneg x (by norm_num)
  rw [show encodeInt32LE x
        = [(x % 4294967296).toNat % 256,
           (x % 4294967296).toNat / 256 % 256,
           (x % 4294967296).toNat / 65536 % 256,
           (x % 4294967296).toNat / 16777216 % 256] from rfl]
  simp only [List.cons_append, List.nil_append]
  rw [leU32_cons4]
  omega

/-- Reading past an encoded word skips its four bytes. -/
theorem leU32_encodeInt32LE_append (x : Int) (rest : List Byte)
    (k : Nat) :
    leU32 (encodeInt32LE x ++ rest) (k + 4) = leU32 rest k :=
  leU32_append4 _ _ _ _ rest k

/-- Two's-complement round trip for values in the int32 range. -/
theorem toInt32_encode (x : Int) (hlo : -2147483648 ≤ x)
    (hhi : x < 2147483648) :
    toInt32 ((x % 4294967296).toNat) = x := by
  unfold toInt32
  split <;> omega

/-- Decoding the i-th word of an encoded list recovers its i-th
element, for in-range elements. -/
theorem decode_encodeInts : ∀ (xs : List Int) (i : Nat), i < xs.length →
    (∀ x ∈ xs, int32Range x) →
    toInt32 (leU32 (encodeInts xs) (4 * i)) = xs.getD i 0 := by
  intro xs
  induction xs with
  | nil => intro i hi _; simp at hi
  | cons x xs ih =>
      intro i hi hr
      cases i with
      | zero =>
          have hx := hr x (List.mem_cons_self x xs)
          rw [show (4 * 0 : Nat) = 0 from rfl]
          rw [show encodeInts (x :: xs)
                = encodeInt32LE x ++ encodeInts xs from rfl]
          rw [leU32_encodeInt32LE]
          rw [show (x :: xs).getD 0 0 = x from rfl]
          exact toInt32_encode x hx.1 hx.2
      | succ j =>
          rw [show (4 * (j + 1) : Nat) = 4 * j + 4 by ring]
          rw [show encodeInts (x :: xs)
                = encodeInt32LE x ++ encodeInts xs from rfl]
          rw [leU32_encodeInt32LE_append]
          rw [show (x :: xs).getD (j + 1) 0 = xs.getD j 0 from rfl]
          exact ih j (by simpa using hi)
            (fun y hy => hr y (List.mem_cons_of_mem x hy))

/-- C7: for every header whose nine fields are in the signed 32-bit
range, encoding them as nine 4-byte little-endian words at offsets
0,4,...,32 and decoding with `parseHeader` yields the header back,
field for field. -/
theorem parseHeader_encodeHeader (h : PCFHeader)
    (h1 : int32Range h.Type_) (h2 : int32Range h.StrucLength)
    (h3 : int32Range h.Version) (h4 : int32Range h.Command)
    (h5 : int32Range h.MsgSeqNumber) (h6 : int32Range h.Control)
    (h7 : int32Range h.CompCode) (h8 : int32Range h.Reason)
    (h9 : int32Range h.ParameterCount) :
    parseHeader (encodeHeader h) = .ok h := by
  obtain ⟨f1, f2, f3, f4, f5, f6, f7, f8, f9⟩ := h
  have hall : ∀ x ∈ [f1, f2, f3, f4, f5, f6, f7, f8, f9], int32Range x := by
    intro x hx
    simp only [List.mem_cons, List.not_mem_nil, or_false] at hx
    rcases hx with rfl | rfl | rfl | rfl | rfl | rfl | rfl | rfl | rfl
    exacts [h1, h2, h3, h4, h5, h6, h7, h8, h9]
  have hlen : (encodeHeader ⟨f1, f2, f3, f4, f5, f6, f7, f8, f9⟩).length
      = 36 := rfl
  have hE : encodeHeader ⟨f1, f2, f3, f4, f5, f6, f7, f8, f9⟩
      = encodeInts [f1, f2, f3, f4, f5, f6, f7, f8, f9] := rfl
  have e1 : toInt32 (leU32 (encodeInts [f1, f2, f3, f4, f5, f6, f7, f8, f9]) 0)
      = f1 := decode_encodeInts _ 0 (by norm_num) hall
  have e2 : toInt32 (leU32 (encodeInts [f1, f2, f3, f4, f5, f6, f7, f8, f9]) 4)
      = f2 := decode_encodeInts _ 1 (by norm_num) hall
  have e3 : toInt32 (leU32 (encodeInts [f1, f2, f3, f4, f5, f6, f7, f8, f9]) 8)
      = f3 := decode_encodeInts _ 2 (by norm_num) hall
  have e4 : toInt32 (leU32 (encodeInts [f1, f2, f3, f4, f5, f6, f7, f8, f9]) 12)
      = f4 := decode_encodeInts _ 3 (by norm_num) hall
  have e5 : toInt32 (leU32 (encodeInts [f1, f2, f3, f4, f5, f6, f7, f8, f9]) 16)
      = f5 := decode_encodeInts _ 4 (by norm_num) hall
  have e6 : toInt32 (leU32 (encodeInts [f1, f2, f3, f4, f5, f6, f7, f8, f9]) 20)
      = f6 := decode_encodeInts _ 5 (by norm_num) hall
  have e7 : toInt32 (leU32 (encodeInts [f1, f2, f3, f4, f5, f6, f7, f8, f9]) 24)
      = f7 := decode_encodeInts _ 6 (by norm_num) hall
  have e8 : toInt32 (leU32 (encodeInts [f1, f2, f3, f4, f5, f6, f7, f8, f9]) 28)
      = f8 := decode_encodeInts _ 7 (by norm_num) hall
  have e9 : toInt32 (leU32 (encodeInts [f1, f2, f3, f4, f5, f6, f7, f8, f9]) 32)
      = f9 := decode_encodeInts _ 8 (by norm_num) hall
  unfold parseHeader
  rw [hE] at hlen ⊢
  rw [if_neg (by omega)]
  simp only [Except.ok.injEq, PCFHeader.mk.injEq]
  exact ⟨e1, e2, e3, e4, e5, e6, e7, e8, e9⟩

/-- Witness: a concrete queue-statistics header round-trips. -/
theorem parseHeader_encodeHeader_witness :
    parseHeader (encodeHeader ⟨20, 36, 1, 113, 1, 1, 0, 0, 2⟩)
      = .ok ⟨20, 36, 1, 113, 1, 1, 0, 0, 2⟩ :=
  parseHeader_encodeHeader ⟨20, 36, 1, 113, 1, 1, 0, 0, 2⟩
    (by constructor <;> norm_num) (by constructor <;> norm_num)
    (by constructor <;> norm_num) (by constructor <;> norm_num)
    (by constructor <;> norm_num) (by constructor <;> norm_num)
    (by constructor <;> norm_num) (by constructor <;> norm_num)
    (by constructor <;> norm_num)

/-! ## Unknown command codes fall back to a generic record -/

/-- For an unknown command code the decoder labels the generic record
with the caller's `msgType` argument, not with the literal
`"statistics"`: called with `msgType = "accounting"`, the resulting
record's type is `"accounting"`. -/
theorem ParseMessage_unknown_command_cex :
    ParseMessage (fun _ _ => .error ()) 0 (List.replicate 36 0)
        "accounting"
      = .ok (.stats
          { Type_ := "accounting", QueueManager := [], Timestamp := 0
            Parameters := [], QueueStats := none, ChannelStats := none
            MQIStats := none }) ∧
    "accounting" ≠ "statistics" := by
  refine ⟨?_, by decide⟩
  unfold ParseMessage
  rw [if_neg (by decide)]
  rw [show parseHeader (List.replicate 36 0)
        = Except.ok ⟨0, 0, 0, 0, 0, 0, 0, 0, 0⟩ from rfl]
  dsimp only
  rw [show (List.replicate 36 (0 : Byte)).drop 36 = ([] : List Byte)
        from rfl]
  rw [show parseParameters ([] : List Byte) 0 = Except.ok [] from by
    unfold parseParameters parseParamsAux
    rfl]
  dsimp only
  rw [if_neg (by decide), if_neg (by decide)]
  rfl

/-- C6 (amended): for every buffer of at least 36 bytes whose command
code matches none of the statistics/accounting constants, and every
`msgType`, `ParseMessage` returns without error a StatisticsData
record whose type label is the `msgType` argument, carrying the
decode-time timestamp and the raw-parameter map, and no
queue/channel/MQI sub-record. -/
theorem ParseMessage_unknown_command (timeParse : TimeParse) (now : Nat)
    (data : List Byte) (msgType : String)
    (hlen : 36 ≤ data.length)
    (hc1 : toInt32 (leU32 data 12) ≠ MQCMD_STATISTICS_Q)
    (hc2 : toInt32 (leU32 data 12) ≠ MQCMD_STATISTICS_CHANNEL)
    (hc3 : toInt32 (leU32 data 12) ≠ MQCMD_STATISTICS_MQI)
    (hc4 : toInt32 (leU32 data 12) ≠ MQCMD_ACCOUNTING_Q)
    (hc5 : toInt32 (leU32 data 12) ≠ MQCMD_ACCOUNTING_MQI) :
    ParseMessage timeParse now data msgType = .ok (.stats
      { Type_ := msgType, QueueManager := [], Timestamp := now
        Parameters := convertParameters (parseParamsAux (data.drop 36) 0 [])
        QueueStats := none, ChannelStats := none, MQIStats := none }) := by
  unfold ParseMessage
  rw [if_neg (by omega)]
  rw [parseHeader, if_neg (by omega)]
  dsimp only
  simp only [parseParameters]
  rw [if_neg (by push_neg; exact ⟨hc1, hc2, hc3⟩),
    if_neg (by push_neg; exact ⟨hc4, hc5⟩)]

/-- Witness: 36 zero bytes (command code 0) with `msgType`
`"statistics"` produce the generic record. -/
theorem ParseMessage_unknown_command_witness :
    ParseMessage (fun _ _ => .error ()) 5 (List.replicate 36 0)
        "statistics"
      = .ok (.stats
          { Type_ := "statistics", QueueManager := [], Timestamp := 5
            Parameters := convertParameters
              (parseParamsAux ((List.replicate 36 0).drop 36) 0 [])
            QueueStats := none, ChannelStats := none, MQIStats := none }) :=
  ParseMessage_unknown_command (fun _ _ => .error ()) 5
    (List.replicate 36 0) "statistics" (by decide) (by decide)
    (by decide) (by decide) (by decide) (by decide)

/-- Witness: a 1-byte buffer errors, a 36-byte buffer decodes. -/
theorem ParseMessage_error_iff_short_witness :
    (∃ e, ParseMessage (fun _ _ => .error ()) 0 [7] "statistics"
        = Except.error e) ∧
    (∃ r, ParseMessage (fun _ _ => .error ())  0
        [0, 0, 0, 0, 0, 0, 0, 0, 0, 0, 0, 0, 0, 0, 0, 0, 0, 0,
         0, 0, 0, 0, 0, 0, 0, 0, 0, 0, 0, 0, 0, 0, 0, 0, 0, 0]
        "statistics" = Except.ok r) :=
  ⟨(ParseMessage_error_iff_short (fun _ _ => .error ()) 0 [7]
      "statistics").1.mpr (by simp),
   (ParseMessage_error_iff_short (fun _ _ => .error ()) 0
      [0, 0, 0, 0, 0, 0, 0, 0, 0, 0, 0, 0, 0, 0, 0, 0, 0, 0,
       0, 0, 0, 0, 0, 0, 0, 0, 0, 0, 0, 0, 0, 0, 0, 0, 0, 0]
      "statistics").2 (by simp)⟩
